import Mathlib

/-!
A shallow embedding of the chunked HTTP range-request download client
(`src/client.rs`, `src/error.rs`, `src/main.rs`) together with proofs about
its planner, fetcher, response parser and integrity check.

Conventions of the embedding:
* `u64`/`usize` values are `Nat`; where the source relies on saturating or
  wrapping machine arithmetic this is written out explicitly (`satAdd`,
  `satSub`, `% 18446744073709551616`).
* Socket I/O is abstracted: a response stream is a `ByteStream` (the bytes
  the server sends plus an optional I/O error kind met at the end of the
  data), and the per-attempt result of `send_request` is an oracle
  `Nat → Except DownloadError HttpResponse` indexed by the attempt number.
* Loops are embedded as structurally recursive functions (with an explicit
  fuel argument where the source iterates data-dependently), so every
  definition evaluates by `rfl`/`decide` on concrete inputs.
* Time (retry delays, timeouts), logging and stdout flushing are not
  modelled: the delays do not affect any data result, and `flush()` is
  treated as always succeeding.
-/

deriving instance DecidableEq for Except

namespace HttpClient

/-- `u64::MAX` = 2^64 - 1. -/
def U64MAX : Nat := 18446744073709551615

/-- client.rs line 9: `const CHUNK_SIZE: u64 = 32 * 1024;`. -/
def CHUNK_SIZE : Nat := 32 * 1024

/-- client.rs line 10: `const MAX_RETRIES: u32 = 10;`. -/
def MAX_RETRIES : Nat := 10

/-- `u64::saturating_add`. -/
def satAdd (a b : Nat) : Nat := min (a + b) U64MAX

/-- `u64::saturating_sub`; on `Nat` truncated subtraction is exactly
saturating subtraction. -/
def satSub (a b : Nat) : Nat := a - b

/-- The kind of a `std::io::Error`, reduced to the one distinction the
client inspects (`ErrorKind::UnexpectedEof` versus anything else,
client.rs line 259). -/
inductive IoErrorKind where
  | unexpectedEof
  | otherKind
deriving DecidableEq, Repr

/-- error.rs lines 3-12, `enum DownloadError`.

Note: error.rs itself declares only `Io`, `Network`, `Parse`, `Logic`,
`HashMismatch` and `Args`; client.rs line 282 additionally constructs a
`DownloadError::Http` variant, which is included here because the parser
code (and the documented error taxonomy) requires it.  The `Io` payload is
reduced to the error kind; the remaining payloads are the human-readable
message strings the source formats. -/
inductive DownloadError where
  | Io (kind : IoErrorKind)
  | Network (msg : String)
  | Parse (msg : String)
  | Http (msg : String)
  | Logic (msg : String)
  | HashMismatch (expected actual : String)
  | Args (msg : String)
deriving DecidableEq, Repr

/-- client.rs lines 16-21: `struct HttpResponse` (the commented-out
`headers` field is omitted, as in the source). Bytes are `Nat`s in 0..256. -/
structure HttpResponse where
  status_code : Nat
  body : List Nat
deriving DecidableEq, Repr

/-- The byte stream a connection yields: the bytes available before the
stream ends, and—if the underlying reader fails once they are
exhausted—the kind of that I/O error.  `tailErr = none` means the stream
ends with a clean EOF. -/
structure ByteStream where
  data : List Nat
  tailErr : Option IoErrorKind
deriving DecidableEq, Repr

/-! ### Rust string primitives (ASCII/UTF-8 fragment)

The source manipulates `String`s via `trim`, `splitn(3, ' ')`,
`split_once(": ")`, `to_lowercase` and `parse::<uN>`.  These are modelled
character-exactly.  `to_lowercase` is modelled on its ASCII fragment
(full Unicode case mapping is not reproduced; every string the client
compares or stores case-folded is ASCII hex / ASCII header text). -/

/-- `char::is_whitespace` (the Unicode `White_Space` property). -/
def rustIsWhitespace (c : Char) : Bool :=
  (9 ≤ c.toNat && c.toNat ≤ 13) || c.toNat == 32 || c.toNat == 133 ||
  c.toNat == 160 || c.toNat == 5760 || (8192 ≤ c.toNat && c.toNat ≤ 8202) ||
  c.toNat == 8232 || c.toNat == 8233 || c.toNat == 8239 ||
  c.toNat == 8287 || c.toNat == 12288

/-- `str::trim`. -/
def rustTrim (str : String) : String :=
  ⟨((str.data.dropWhile rustIsWhitespace).reverse.dropWhile rustIsWhitespace).reverse⟩

/-- Split a character list at every occurrence of `sep` (the groups keep
no separator; `n` separators yield `n + 1` groups, as Rust's
`str::split(char)` does). -/
def splitOnChar (sep : Char) : List Char → List (List Char)
  | [] => [[]]
  | c :: cs =>
    let r := splitOnChar sep cs
    if c == sep then [] :: r
    else
      match r with
      | [] => [[c]]
      | g :: gs => (c :: g) :: gs

/-- Re-join groups with single spaces (for the unsplit tail a bounded
`splitn` keeps). -/
def joinWithSpace : List (List Char) → List Char
  | [] => []
  | [g] => g
  | g :: gs => g ++ ' ' :: joinWithSpace gs

/-- `str::splitn(3, ' ')` collected into a vector (client.rs line 214):
at most two splits at the first two spaces, the third piece keeps the rest. -/
def rustSplitn3Space (str : String) : List String :=
  match splitOnChar ' ' str.data with
  | [] => [str]
  | [a] => [⟨a⟩]
  | [a, b] => [⟨a⟩, ⟨b⟩]
  | a :: b :: rest => [⟨a⟩, ⟨b⟩, ⟨joinWithSpace rest⟩]

/-- Whether `pat` is an initial segment of `cs`. -/
def matchesAt : List Char → List Char → Bool
  | [], _ => true
  | _ :: _, [] => false
  | p :: ps, c :: cs => p == c && matchesAt ps cs

/-- Split at the first occurrence of `pat`, as `str::split_once` does. -/
def splitOnceList (pat : List Char) : List Char → Option (List Char × List Char)
  | [] => if matchesAt pat [] then some ([], []) else none
  | c :: cs =>
    if matchesAt pat (c :: cs) then some ([], (c :: cs).drop pat.length)
    else
      match splitOnceList pat cs with
      | some (pre, post) => some (c :: pre, post)
      | none => none

/-- `str::split_once`: `some (before, after)` around the first occurrence
of the pattern, `none` when the pattern does not occur. -/
def rustSplitOnce (str pat : String) : Option (String × String) :=
  (splitOnceList pat.data str.data).map (fun p => (⟨p.1⟩, ⟨p.2⟩))

/-- ASCII lower-casing of one character. -/
def lowerChar (c : Char) : Char :=
  if 'A' ≤ c ∧ c ≤ 'Z' then Char.ofNat (c.toNat + 32) else c

/-- `str::to_lowercase` on its ASCII fragment. -/
def rustToLower (str : String) : String := ⟨str.data.map lowerChar⟩

/-- ASCII digit test. -/
def isAsciiDigit (c : Char) : Bool := '0' ≤ c && c ≤ '9'

/-- Numeric value of a digit string. -/
def digitsVal (cs : List Char) : Nat :=
  cs.foldl (fun acc c => acc * 10 + (c.toNat - 48)) 0

/-- `uN::from_str` (used as `parse::<u16>()` and `parse::<usize>()`):
an optional leading `+`, then one or more ASCII digits, value at most
`maxVal`; anything else (including overflow) is a parse failure. -/
def rustParseUInt (maxVal : Nat) (str : String) : Option Nat :=
  let cs :=
    match str.data with
    | '+' :: rest => rest
    | cs => cs
  if cs = [] then none
  else if cs.all isAsciiDigit then
    if digitsVal cs ≤ maxVal then some (digitsVal cs) else none
  else none

/-! ### UTF-8 decoding

`BufRead::read_line` validates that the bytes read are UTF-8 and fails
with an `InvalidData` I/O error otherwise.  `utf8Decode` is the standard
UTF-8 automaton (continuation ranges per leading byte, overlongs and
surrogates rejected). -/

/-- Decoder state: either at a character boundary, or expecting
`remaining` continuation bytes with accumulator `acc`, the next byte
constrained to `[lo, hi]`. -/
inductive Utf8State where
  | boundary
  | need (remaining acc lo hi : Nat)

/-- The UTF-8 automaton over a byte list. -/
def utf8Aux : Utf8State → List Nat → Option (List Char)
  | .boundary, [] => some []
  | .need _ _ _ _, [] => none
  | .boundary, b :: bs =>
    if b ≤ 0x7F then (utf8Aux .boundary bs).map (fun cs => Char.ofNat b :: cs)
    else if 0xC2 ≤ b ∧ b ≤ 0xDF then utf8Aux (.need 1 (b - 0xC0) 0x80 0xBF) bs
    else if b = 0xE0 then utf8Aux (.need 2 0 0xA0 0xBF) bs
    else if b = 0xED then utf8Aux (.need 2 (b - 0xE0) 0x80 0x9F) bs
    else if 0xE1 ≤ b ∧ b ≤ 0xEF then utf8Aux (.need 2 (b - 0xE0) 0x80 0xBF) bs
    else if b = 0xF0 then utf8Aux (.need 3 0 0x90 0xBF) bs
    else if 0xF1 ≤ b ∧ b ≤ 0xF3 then utf8Aux (.need 3 (b - 0xF0) 0x80 0xBF) bs
    else if b = 0xF4 then utf8Aux (.need 3 (b - 0xF0) 0x80 0x8F) bs
    else none
  | .need r acc lo hi, b :: bs =>
    if lo ≤ b ∧ b ≤ hi then
      match r with
      | 0 => none
      | 1 => (utf8Aux .boundary bs).map (fun cs => Char.ofNat (acc * 64 + (b - 0x80)) :: cs)
      | r + 2 => utf8Aux (.need (r + 1) (acc * 64 + (b - 0x80)) 0x80 0xBF) bs
    else none

/-- Decode a byte list as UTF-8. -/
def utf8Decode (bs : List Nat) : Option String :=
  (utf8Aux .boundary bs).map (fun cs => ⟨cs⟩)

/-- The UTF-8 bytes of an ASCII string (used to build concrete streams). -/
def strBytes (s : String) : List Nat := s.data.map Char.toNat

/-! ### Reader primitives -/

/-- Scan up to and including the first `\n` (byte 10): the line bytes, a
flag telling whether a newline was found, and the remaining bytes. -/
def takeLine : List Nat → List Nat × Bool × List Nat
  | [] => ([], false, [])
  | b :: bs =>
    if b = 10 then ([10], true, bs)
    else
      let r := takeLine bs
      (b :: r.1, r.2.1, r.2.2)

/-- `BufRead::read_line`: bytes up to and including `\n` (or up to EOF),
decoded as UTF-8.  If the underlying reader fails before a newline is
found the error is returned; invalid UTF-8 is an `InvalidData` error
(kind ≠ `UnexpectedEof`). -/
def readLine (s : ByteStream) : Except IoErrorKind (String × ByteStream) :=
  let r := takeLine s.data
  match r.2.1, s.tailErr with
  | false, some k => .error k
  | _, _ =>
    match utf8Decode r.1 with
    | some line => .ok (line, ⟨r.2.2, s.tailErr⟩)
    | none => .error .otherKind

/-- `Read::read_exact` into a buffer of `n` bytes: on a clean EOF before
`n` bytes it fails with `UnexpectedEof`; an underlying reader failure is
propagated with its own kind. -/
def readExact (n : Nat) (s : ByteStream) : Except IoErrorKind (List Nat × ByteStream) :=
  if n ≤ s.data.length then .ok (s.data.take n, ⟨s.data.drop n, s.tailErr⟩)
  else
    match s.tailErr with
    | some k => .error k
    | none => .error .unexpectedEof

/-! ### Response parser (client.rs lines 209-294, `parse_http_response`) -/

/-- Look up the first `content-length` header and parse its value,
client.rs lines 247-250.  Note the source applies `.ok()` to the parse
result, so an unparseable value makes the whole lookup `none`, exactly as
if the header were absent. -/
def findContentLength (headers : List (String × String)) : Option Nat :=
  match headers.find? (fun p => p.1 == "content-length") with
  | some p => rustParseUInt U64MAX p.2
  | none => none

/-- The header loop, client.rs lines 225-242: read lines until a blank
line; a non-blank line must split at the first `": "` into name and
value (else `Parse`); names are lower-cased, values trimmed.

The loop consumes at least one byte of the stream per non-blank line, so
the explicit fuel never runs out when it starts at `s.data.length + 1`
(as `parseStatusAndHeaders` below arranges); the fuel-exhausted branch is
unreachable for that canonical fuel. -/
def readHeadersAux : Nat → ByteStream → Except DownloadError (List (String × String) × ByteStream)
  | 0, _ => .error (.Parse "header loop fuel exhausted")
  | fuel + 1, s =>
    match readLine s with
    | .error k => .error (.Io k)
    | .ok (header_line, rest) =>
      let t := rustTrim header_line
      if t.data = [] then .ok ([], rest)
      else
        match rustSplitOnce t ": " with
        | some (name, value) =>
          match readHeadersAux fuel rest with
          | .error e => .error e
          | .ok (hs, s2) => .ok ((rustToLower name, rustTrim value) :: hs, s2)
        | none => .error (.Parse ("Malformed header line: " ++ header_line))

/-- client.rs lines 210-242: the status line (split into at most three
pieces on spaces, the second parsed as a `u16`) followed by the header
loop. -/
def parseStatusAndHeaders (s : ByteStream) :
    Except DownloadError (Nat × List (String × String) × ByteStream) :=
  match readLine s with
  | .error k => .error (.Io k)
  | .ok (status_line, s1) =>
    match rustSplitn3Space (rustTrim status_line) with
    | _ :: p1 :: _ =>
      match rustParseUInt 65535 p1 with
      | none => .error (.Parse ("Invalid status code: " ++ p1))
      | some status_code =>
        match readHeadersAux (s1.data.length + 1) s1 with
        | .error e => .error e
        | .ok (headers, s2) => .ok (status_code, headers, s2)
    | _ => .error (.Parse ("Malformed status line: " ++ status_line))

/-- The message of client.rs lines 272-274. -/
def prematureCloseMsg (len status_code : Nat) : String :=
  "Server connection closed prematurely after promising " ++ toString len ++
    " bytes (status " ++ toString status_code ++ ")"

/-- The body phase, client.rs lines 247-287: with a `content-length`,
`read_exact` that many bytes — a clean early EOF (`UnexpectedEof`) is a
`Network` error, any other I/O failure is `Io`; without one, statuses
204, 304 and 1xx get an empty body and anything else is `Http`. -/
def readBody (status_code : Nat) (headers : List (String × String)) (s : ByteStream) :
    Except DownloadError (List Nat) :=
  match findContentLength headers with
  | some len =>
    match readExact len s with
    | .ok (body, _) => .ok body
    | .error k =>
      if k = .unexpectedEof then .error (.Network (prematureCloseMsg len status_code))
      else .error (.Io k)
  | none =>
    if status_code = 204 ∨ status_code = 304 ∨ (100 ≤ status_code ∧ status_code < 200) then
      .ok []
    else
      .error (.Http ("Missing Content-Length header for status " ++ toString status_code))

/-- client.rs lines 209-294, `parse_http_response`, as the composition of
its status/header phase and its body phase. -/
def parse_http_response (s : ByteStream) : Except DownloadError HttpResponse :=
  match parseStatusAndHeaders s with
  | .error e => .error e
  | .ok (status_code, headers, s2) =>
    match readBody status_code headers s2 with
    | .error e => .error e
    | .ok body => .ok ⟨status_code, body⟩

/-! ### Request builder (client.rs lines 165-207, `send_request`)

`send_request` is socket I/O plus a pure request string construction; the
construction (lines 177-197) is modelled here.  The range argument is
`(start_inclusive, end_exclusive)` as the source comment on line 164
says. -/

/-- client.rs line 177: `address.split(':').next().unwrap_or(address)`. -/
def hostOf (address : String) : String :=
  match splitOnChar ':' address.data with
  | [] => address
  | h :: _ => ⟨h⟩

/-- client.rs lines 180-197: the request text `send_request` writes to the
socket. -/
def build_request (address : String) (range : Option (Nat × Nat)) : String :=
  let host := hostOf address
  let request_str := "GET / HTTP/1.1\r\nHost: " ++ host ++ "\r\nConnection: close\r\n"
  let request_str :=
    match range with
    | some (start, e) =>
      if e > start then
        request_str ++ ("Range: bytes=" ++ toString start ++ "-" ++ toString e ++ "\r\n")
      else
        request_str ++ ("Range: bytes=" ++ toString start ++ "-" ++ toString start ++ "\r\n")
    | none => request_str
  request_str ++ "\r\n"

/-- The request `download_chunk` sends for the inclusive range
`[start, e]`: client.rs lines 100-101 pass `(start, end.saturating_add(1))`
to `send_request`. -/
def chunk_request (address : String) (start e : Nat) : String :=
  build_request address (some (start, satAdd e 1))

/-! ### Chunk fetcher (client.rs lines 86-162, `download_chunk`)

The network is abstracted by an oracle `att : Nat → Except DownloadError
HttpResponse` giving, for each attempt number, the result that
`send_request(address, Some((start, end + 1)))` would produce on that
attempt. -/

/-- The terminal message of client.rs lines 159-161. -/
def chunkFailMsg (start e : Nat) : String :=
  "Failed to download chunk " ++ toString start ++ "-" ++ toString e ++
    " after " ++ toString MAX_RETRIES ++ " retries"

/-- The retry loop of client.rs lines 96-161 (`for attempt in
1..=MAX_RETRIES`), with `remaining` attempts left and the current
`attempt` number: a parsed response with status 206 or 200 whose body has
exactly the expected length is returned; anything else (wrong length,
unexpected status, transport/parse error) falls through to the next
attempt; exhaustion is the `Network` error of lines 159-161. -/
def chunkLoop (att : Nat → Except DownloadError HttpResponse) (start e expected_len : Nat) :
    Nat → Nat → Except DownloadError (List Nat)
  | 0, _ => .error (.Network (chunkFailMsg start e))
  | remaining + 1, attempt =>
    match att attempt with
    | .ok response =>
      if response.status_code = 206 ∨ response.status_code = 200 then
        if response.body.length = expected_len then .ok response.body
        else chunkLoop att start e expected_len remaining (attempt + 1)
      else chunkLoop att start e expected_len remaining (attempt + 1)
    | .error _ => chunkLoop att start e expected_len remaining (attempt + 1)

/-- client.rs lines 86-162, `download_chunk`.  Line 87 computes
`(end.saturating_sub(start) + 1) as usize` in `u64` arithmetic: for the
one u64 range where the `+ 1` overflows (`start = 0`, `end = u64::MAX`)
the release-profile value wraps to `0` and the defensive branch of lines
88-91 returns an empty `Ok` without any attempt. -/
def download_chunk (att : Nat → Except DownloadError HttpResponse) (start e : Nat) :
    Except DownloadError (List Nat) :=
  let expected_len := (satSub e start + 1) % 18446744073709551616
  if expected_len = 0 then .ok []
  else chunkLoop att start e expected_len MAX_RETRIES 1

/-- An attempt the retry loop accepts: on attempt `a` the oracle yields a
parsed response with status 206 or 200 whose body has exactly the
expected length (client.rs lines 110-111). -/
def goodAttempt (att : Nat → Except DownloadError HttpResponse) (expected a : Nat) : Prop :=
  ∃ r, att a = .ok r ∧ (r.status_code = 206 ∨ r.status_code = 200) ∧ r.body.length = expected

/-! ### Download orchestrator (client.rs lines 25-83, `download_full_data`) -/

/-- The inclusive end of the chunk starting at `pos`, client.rs lines
37-40: `pos.saturating_add(CHUNK_SIZE).saturating_sub(1)`, clipped to
`total_size.saturating_sub(1)` when it reaches `total_size`. -/
def chunkEndFor (total_size pos : Nat) : Nat :=
  let chunk_end := satSub (satAdd pos CHUNK_SIZE) 1
  if chunk_end ≥ total_size then satSub total_size 1 else chunk_end

/-- The slice write of client.rs line 68:
`full_data[start_idx..start_idx + chunk_data.len()].copy_from_slice(&chunk_data)`,
given that the bounds were checked. -/
def setRange (buf : List Nat) (start : Nat) (data : List Nat) : List Nat :=
  buf.take start ++ data ++ buf.drop (start + data.length)

/-- The result of running the orchestrator: a value, a propagated
`DownloadError`, a panic (a `debug_assert!` firing or the slice write
going out of bounds), or fuel exhaustion of the embedding. -/
inductive Outcome (α : Type) where
  | ok (val : α)
  | fail (e : DownloadError)
  | panicked
  | outOfFuel
deriving DecidableEq, Repr

/-- The `while current_pos < total_size` loop of client.rs lines 35-79.
The three `debug_assert!`s (lines 45, 51-54, 60-65) are modelled as
`panicked` outcomes; the bound of the third assertion is also exactly the
bound under which the slice write of line 68 cannot panic.  `att cs ce`
is the attempt oracle `download_chunk` uses for the chunk `[cs, ce]`.
One fuel unit is spent per loop entry — including the final entry that
observes `current_pos ≥ total_size` and returns the buffer — and every
entry that recurses advances `current_pos` by the fetched chunk's length,
which is at least one byte; hence the fuel `total_size + 1` supplied by
`download_full_data` never runs out (`dlLoop_no_fuel_out` below). -/
def dlLoop (att : Nat → Nat → Nat → Except DownloadError HttpResponse) (total_size : Nat) :
    Nat → Nat → List Nat → Outcome (List Nat)
  | 0, _, _ => .outOfFuel
  | fuel + 1, current_pos, full_data =>
    if current_pos < total_size then
      let chunk_start := current_pos
      let chunk_end := chunkEndFor total_size current_pos
      if ¬ chunk_start ≤ chunk_end then .panicked
      else
        match download_chunk (att chunk_start chunk_end) chunk_start chunk_end with
        | .error e => .fail e
        | .ok chunk_data =>
          let expected_len := chunk_end - chunk_start + 1
          if chunk_data.length ≠ expected_len then .panicked
          else if ¬ chunk_start + chunk_data.length ≤ full_data.length then .panicked
          else
            dlLoop att total_size fuel (current_pos + chunk_data.length)
              (setRange full_data chunk_start chunk_data)
    else .ok full_data

/-- client.rs lines 25-83, `download_full_data`: `total_size == 0` short-
circuits to an empty buffer; otherwise a zeroed buffer of `total_size`
bytes is filled chunk by chunk.  The loop runs for at most `total_size`
iterations (each covers at least one byte) plus the final
`current_pos ≥ total_size` check, so fuel `total_size + 1` covers every
run.  Progress printing and `flush()` are not modelled (flushing stdout
is assumed to succeed). -/
def download_full_data (att : Nat → Nat → Nat → Except DownloadError HttpResponse)
    (total_size : Nat) : Outcome (List Nat) :=
  if total_size = 0 then .ok []
  else dlLoop att total_size (total_size + 1) 0 (List.replicate total_size 0)

/-- The sequence of inclusive ranges the orchestrator's loop iterates
(client.rs lines 35-40) on its success path, where each fetched chunk has
exactly the expected length and line 70 advances `current_pos` to
`chunk_end + 1`.  The fuel bounds the iteration count; `planRanges`
supplies `total_size`, which suffices because every range covers at least
one byte. -/
def planFrom (total_size : Nat) : Nat → Nat → List (Nat × Nat)
  | 0, _ => []
  | fuel + 1, pos =>
    if pos < total_size then
      (pos, chunkEndFor total_size pos) :: planFrom total_size fuel (chunkEndFor total_size pos + 1)
    else []

/-- All chunk ranges for a download of `total_size` bytes. -/
def planRanges (total_size : Nat) : List (Nat × Nat) :=
  planFrom total_size total_size 0

/-! ### Integrity verification (main.rs lines 58-71)

`calculate_sha256` (sha.rs) is an external collaborator; the comparison
logic of main.rs takes its output `actual_hash` as input here. -/

/-- main.rs lines 60-71: the expected hash (if supplied) is lower-cased
and compared with the computed digest; a difference is
`HashMismatch { expected: <lower-cased argument>, actual: <digest> }`. -/
def verify_hash (actual_hash : String) (expected_arg : Option String) :
    Except DownloadError Unit :=
  match expected_arg.map rustToLower with
  | some hash => if actual_hash ≠ hash then .error (.HashMismatch hash actual_hash) else .ok ()
  | none => .ok ()

/-! ## Helper lemmas -/

/-- Once the status/header phase of the parser is fixed, the parser's
result is the body phase's result (tagged with the status code). -/
lemma parse_ok_of_phases {s : ByteStream} {st : Nat} {hs : List (String × String)}
    {rest : ByteStream} {body : List Nat}
    (h1 : parseStatusAndHeaders s = .ok (st, hs, rest))
    (hb : readBody st hs rest = .ok body) :
    parse_http_response s = .ok ⟨st, body⟩ := by
  simp only [parse_http_response, h1, hb]

/-- Companion to `parse_ok_of_phases` for a failing body phase. -/
lemma parse_err_of_phases {s : ByteStream} {st : Nat} {hs : List (String × String)}
    {rest : ByteStream} {e : DownloadError}
    (h1 : parseStatusAndHeaders s = .ok (st, hs, rest))
    (hb : readBody st hs rest = .error e) :
    parse_http_response s = .error e := by
  simp only [parse_http_response, h1, hb]

/-- The body phase without a usable `content-length`: statuses 204, 304
and 1xx succeed with an empty body, everything else is the `Http` error
(client.rs lines 278-287). -/
lemma readBody_absent {st : Nat} {hs : List (String × String)} (s : ByteStream)
    (h : findContentLength hs = none) :
    readBody st hs s =
      if st = 204 ∨ st = 304 ∨ (100 ≤ st ∧ st < 200) then .ok []
      else .error (.Http ("Missing Content-Length header for status " ++ toString st)) := by
  simp only [readBody, h]

/-- Every successful result of the retry loop is a body of exactly the
expected length. -/
lemma chunkLoop_ok_length (att : Nat → Except DownloadError HttpResponse)
    (start e expected : Nat) :
    ∀ remaining attempt body,
      chunkLoop att start e expected remaining attempt = .ok body →
      body.length = expected := by
  intro remaining
  induction remaining with
  | zero => intro attempt body h; simp [chunkLoop] at h
  | succ n ih =>
    intro attempt body h
    cases hatt : att attempt with
    | ok r =>
      simp only [chunkLoop, hatt] at h
      by_cases hst : r.status_code = 206 ∨ r.status_code = 200
      · rw [if_pos hst] at h
        by_cases hlen : r.body.length = expected
        · rw [if_pos hlen] at h
          injection h with h'
          rw [← h']
          exact hlen
        · rw [if_neg hlen] at h
          exact ih _ _ h
      · rw [if_neg hst] at h
        exact ih _ _ h
    | error err =>
      simp only [chunkLoop, hatt] at h
      exact ih _ _ h

/-- If no attempt in the window is acceptable, the retry loop ends in the
`Network` exhaustion error. -/
lemma chunkLoop_fail (att : Nat → Except DownloadError HttpResponse)
    (start e expected : Nat) :
    ∀ remaining attempt,
      (∀ j, attempt ≤ j → j < attempt + remaining → ¬ goodAttempt att expected j) →
      chunkLoop att start e expected remaining attempt =
        .error (.Network (chunkFailMsg start e)) := by
  intro remaining
  induction remaining with
  | zero => intro attempt _; simp [chunkLoop]
  | succ n ih =>
    intro attempt h
    cases hatt : att attempt with
    | ok r =>
      simp only [chunkLoop, hatt]
      by_cases hst : r.status_code = 206 ∨ r.status_code = 200
      · rw [if_pos hst]
        by_cases hlen : r.body.length = expected
        · exact absurd ⟨r, hatt, hst, hlen⟩ (h attempt (Nat.le_refl _) (by omega))
        · rw [if_neg hlen]
          exact ih (attempt + 1) (fun j hj1 hj2 => h j (by omega) (by omega))
      · rw [if_neg hst]
        exact ih (attempt + 1) (fun j hj1 hj2 => h j (by omega) (by omega))
    | error err =>
      simp only [chunkLoop, hatt]
      exact ih (attempt + 1) (fun j hj1 hj2 => h j (by omega) (by omega))

/-- If some attempt in the window is acceptable, the retry loop returns
a body. -/
lemma chunkLoop_ok_of_good (att : Nat → Except DownloadError HttpResponse)
    (start e expected : Nat) :
    ∀ remaining attempt j, attempt ≤ j → j < attempt + remaining →
      goodAttempt att expected j →
      ∃ body, chunkLoop att start e expected remaining attempt = .ok body := by
  intro remaining
  induction remaining with
  | zero => intro attempt j h1 h2 _; omega
  | succ n ih =>
    intro attempt j h1 h2 hg
    cases hatt : att attempt with
    | ok r =>
      simp only [chunkLoop, hatt]
      by_cases hst : r.status_code = 206 ∨ r.status_code = 200
      · rw [if_pos hst]
        by_cases hlen : r.body.length = expected
        · exact ⟨r.body, by rw [if_pos hlen]⟩
        · rw [if_neg hlen]
          refine ih (attempt + 1) j ?_ (by omega) hg
          rcases Nat.eq_or_lt_of_le h1 with heq | hlt
          · exfalso
            obtain ⟨r2, ha2, _, hlen2⟩ := hg
            rw [← heq, hatt] at ha2
            injection ha2 with hr
            rw [← hr] at hlen2
            exact hlen hlen2
          · omega
      · rw [if_neg hst]
        refine ih (attempt + 1) j ?_ (by omega) hg
        rcases Nat.eq_or_lt_of_le h1 with heq | hlt
        · exfalso
          obtain ⟨r2, ha2, hst2, _⟩ := hg
          rw [← heq, hatt] at ha2
          injection ha2 with hr
          rw [← hr] at hst2
          exact hst hst2
        · omega
    | error err =>
      simp only [chunkLoop, hatt]
      refine ih (attempt + 1) j ?_ (by omega) hg
      rcases Nat.eq_or_lt_of_le h1 with heq | hlt
      · exfalso
        obtain ⟨r2, ha2, _, _⟩ := hg
        rw [← heq, hatt] at ha2
        cases ha2
      · omega

/-- For a non-degenerate u64 range, `download_chunk` is its retry loop
over `MAX_RETRIES` attempts with the exact expected length. -/
lemma download_chunk_eq_loop (att : Nat → Except DownloadError HttpResponse)
    (start e : Nat) (_h1 : start ≤ e) (h2 : e - start < U64MAX) :
    download_chunk att start e = chunkLoop att start e (e - start + 1) MAX_RETRIES 1 := by
  simp only [download_chunk, satSub]
  rw [Nat.mod_eq_of_lt (by simp only [U64MAX] at h2; omega)]
  rw [if_neg (by omega)]

/-- A successful `download_chunk` on a non-degenerate u64 range returns
exactly `e - start + 1` bytes. -/
lemma download_chunk_ok_length (att : Nat → Except DownloadError HttpResponse)
    (start e : Nat) (h1 : start ≤ e) (h2 : e - start < U64MAX) (body : List Nat)
    (h : download_chunk att start e = .ok body) :
    body.length = e - start + 1 := by
  rw [download_chunk_eq_loop att start e h1 h2] at h
  exact chunkLoop_ok_length att start e _ MAX_RETRIES 1 body h

/-! ## Claim C5 -/

/-- Claim C5: for every response whose `content-length` header declares
`n` bytes, if the stream ends before `n` body bytes arrive the parser
fails with a `Network` error (the premature-close message), not an `Io`
error; an I/O failure of any other kind while reading the body fails with
`Io`. -/
theorem c5_premature_close (s : ByteStream) (st n : Nat)
    (hs : List (String × String)) (rest : ByteStream)
    (h1 : parseStatusAndHeaders s = .ok (st, hs, rest))
    (h2 : findContentLength hs = some n)
    (h3 : rest.data.length < n) :
    (rest.tailErr = none →
      parse_http_response s = .error (.Network (prematureCloseMsg n st))) ∧
    (∀ k, rest.tailErr = some k → k ≠ .unexpectedEof →
      parse_http_response s = .error (.Io k)) := by
  constructor
  · intro ht
    apply parse_err_of_phases h1
    simp only [readBody, h2, readExact, ht]
    rw [if_neg (by omega)]
    simp
  · intro k hk hne
    apply parse_err_of_phases h1
    simp only [readBody, h2, readExact, hk]
    rw [if_neg (by omega)]
    simp [hne]

/-- Witness for C5 at the spec's own example: status 200,
`Content-Length: 100`, only 60 bytes before a clean close. -/
theorem c5_witness :
    parse_http_response
        ⟨strBytes "HTTP/1.1 200 OK\r\ncontent-length: 100\r\n\r\n" ++ List.replicate 60 0, none⟩ =
      .error (.Network (prematureCloseMsg 100 200)) :=
  (c5_premature_close
    ⟨strBytes "HTTP/1.1 200 OK\r\ncontent-length: 100\r\n\r\n" ++ List.replicate 60 0, none⟩
    200 100 [("content-length", "100")] ⟨List.replicate 60 0, none⟩
    (by rfl) (by rfl) (by decide)).1 (by rfl)

/-! ## Claim C6 -/

/-- Claim C6 (behaviour half): for a well-formed response lacking a
usable `content-length` header, statuses 204, 304 and 100..199 succeed
with an empty body and every other status fails with the `Http` variant.
The other half of the claim — that the closed `DownloadError` type of
error.rs provides `Http` alongside `Io`, `Network`, `Parse`, `Logic`,
`Args` and `HashMismatch` — is FALSE of error.rs as written: its enum has
no `Http` variant even though client.rs line 282 constructs
`DownloadError::Http`, so the crate does not compile; the model's
`DownloadError.Http` follows client.rs and the documented taxonomy. -/
theorem c6_missing_content_length (s : ByteStream) (st : Nat)
    (hs : List (String × String)) (rest : ByteStream)
    (h1 : parseStatusAndHeaders s = .ok (st, hs, rest))
    (h2 : findContentLength hs = none) :
    (st = 204 ∨ st = 304 ∨ (100 ≤ st ∧ st < 200) →
      parse_http_response s = .ok ⟨st, []⟩) ∧
    (¬(st = 204 ∨ st = 304 ∨ (100 ≤ st ∧ st < 200)) →
      parse_http_response s =
        .error (.Http ("Missing Content-Length header for status " ++ toString st))) := by
  constructor
  · intro hcond
    apply parse_ok_of_phases h1
    rw [readBody_absent rest h2, if_pos hcond]
  · intro hcond
    apply parse_err_of_phases h1
    rw [readBody_absent rest h2, if_neg hcond]

/-- Witness for C6 at the failing input `HTTP/1.1 200 OK` with no
headers: the parser takes the `DownloadError::Http` path that error.rs
does not define. -/
theorem c6_witness :
    parse_http_response ⟨strBytes "HTTP/1.1 200 OK\r\n\r\n", none⟩ =
      .error (.Http ("Missing Content-Length header for status " ++ toString 200)) :=
  (c6_missing_content_length ⟨strBytes "HTTP/1.1 200 OK\r\n\r\n", none⟩ 200 [] ⟨[], none⟩
    (by rfl) (by rfl)).2 (by decide)

/-! ## Claim C7 -/

/-- Counterexample to claim C7: a response whose `content-length` value
`"abc"` does not parse as an unsigned integer is NOT rejected — with
status 204 the parser succeeds with an empty body, because client.rs line
250 discards the parse failure with `.ok()` and thereby treats the header
as absent. -/
theorem c7_counterexample :
    parse_http_response ⟨strBytes "HTTP/1.1 204 OK\r\ncontent-length: abc\r\n\r\n", none⟩ =
      .ok ⟨204, []⟩ := by
  decide

/-- Claim C7 as amended: a `content-length` header whose value does not
parse as an unsigned integer is treated exactly as if the header were
absent (the parse failure is swallowed by `.ok()`): statuses 204, 304 and
1xx succeed with an empty body, every other status fails with the `Http`
missing-header error. -/
theorem c7_amended (s : ByteStream) (st : Nat) (hs : List (String × String))
    (rest : ByteStream) (pr : String × String)
    (h1 : parseStatusAndHeaders s = .ok (st, hs, rest))
    (h2 : hs.find? (fun p => p.1 == "content-length") = some pr)
    (h3 : rustParseUInt U64MAX pr.2 = none) :
    parse_http_response s =
      if st = 204 ∨ st = 304 ∨ (100 ≤ st ∧ st < 200) then .ok ⟨st, []⟩
      else .error (.Http ("Missing Content-Length header for status " ++ toString st)) := by
  have habs : findContentLength hs = none := by
    simp only [findContentLength, h2, h3]
  by_cases hcond : st = 204 ∨ st = 304 ∨ (100 ≤ st ∧ st < 200)
  · rw [if_pos hcond]
    apply parse_ok_of_phases h1
    rw [readBody_absent rest habs, if_pos hcond]
  · rw [if_neg hcond]
    apply parse_err_of_phases h1
    rw [readBody_absent rest habs, if_neg hcond]

/-- Witness for the amended C7 at a 304 response with the unparseable
`content-length: 12x`. -/
theorem c7_witness :
    parse_http_response ⟨strBytes "HTTP/1.1 304 NM\r\ncontent-length: 12x\r\n\r\n", none⟩ =
      if (304 : Nat) = 204 ∨ (304 : Nat) = 304 ∨ (100 ≤ (304 : Nat) ∧ (304 : Nat) < 200) then
        .ok ⟨304, []⟩
      else .error (.Http ("Missing Content-Length header for status " ++ toString 304)) :=
  c7_amended ⟨strBytes "HTTP/1.1 304 NM\r\ncontent-length: 12x\r\n\r\n", none⟩ 304
    [("content-length", "12x")] ⟨[], none⟩ ("content-length", "12x") (by rfl) (by rfl) (by decide)

/-! ## Claim C8 -/

/-- Counterexample to claim C8: the header line `x: y: z` contains the
separator `": "` twice — not exactly once — yet the parser accepts it
(splitting at the first occurrence, name `x`, value `y: z`) instead of
returning a `Parse` error, because client.rs line 233 uses `split_once`. -/
theorem c8_counterexample :
    parse_http_response ⟨strBytes "HTTP/1.1 200 OK\r\nx: y: z\r\ncontent-length: 0\r\n\r\n", none⟩ =
      .ok ⟨200, []⟩ := by
  decide

/-- Claim C8 as amended: each non-blank header line must contain `": "`
AT LEAST once; it is split at the FIRST occurrence into name and value
(name lower-cased, value trimmed), and only a line with no occurrence of
`": "` yields a `Parse` error. -/
theorem c8_amended (fuel : Nat) (s : ByteStream) (line : String) (rest : ByteStream)
    (h1 : readLine s = .ok (line, rest))
    (h2 : (rustTrim line).data ≠ []) :
    (rustSplitOnce (rustTrim line) ": " = none →
      readHeadersAux (fuel + 1) s = .error (.Parse ("Malformed header line: " ++ line))) ∧
    (∀ name value, rustSplitOnce (rustTrim line) ": " = some (name, value) →
      readHeadersAux (fuel + 1) s =
        match readHeadersAux fuel rest with
        | .error e => .error e
        | .ok (hs, s2) => .ok ((rustToLower name, rustTrim value) :: hs, s2)) := by
  constructor
  · intro hsplit
    simp only [readHeadersAux, h1, if_neg h2, hsplit]
  · intro name value hsplit
    simp only [readHeadersAux, h1, if_neg h2, hsplit]

/-- Witness for the amended C8: the single header line `x: y` splits at
its `": "` into name `x` and value `y`. -/
theorem c8_witness :
    readHeadersAux 10 ⟨strBytes "x: y\r\n\r\n", none⟩ =
      match readHeadersAux 9 (⟨strBytes "\r\n", none⟩ : ByteStream) with
      | .error e => .error e
      | .ok (hs, s2) => .ok ((rustToLower "x", rustTrim "y") :: hs, s2) :=
  (c8_amended 9 ⟨strBytes "x: y\r\n\r\n", none⟩ "x: y\r\n" ⟨strBytes "\r\n", none⟩
    (by rfl) (by decide)).2 "x" "y" (by rfl)

/-! ## Claim C9 -/

/-- Counterexample to claim C9: with computed digest `"aa"` and
caller-supplied expected hash `"BB"`, the mismatch error carries
`expected := "bb"` — the lower-cased value, not the caller's verbatim
`"BB"` (main.rs line 60 lower-cases before storing). -/
theorem c9_counterexample :
    verify_hash "aa" (some "BB") = .error (.HashMismatch "bb" "aa") ∧ ("bb" : String) ≠ "BB" := by
  decide

/-- Claim C9 as amended: the comparison is case-insensitive on the
expected value (it is lower-cased before comparing, and the outcome
depends only on that normalized form); on a mismatch the error is
`HashMismatch` whose `actual` field is the computed digest verbatim and
whose `expected` field is the CASE-NORMALIZED (lower-cased) caller value,
not the caller's verbatim spelling. -/
theorem c9_amended (actual exp : String) :
    (actual ≠ rustToLower exp →
      verify_hash actual (some exp) = .error (.HashMismatch (rustToLower exp) actual)) ∧
    (actual = rustToLower exp → verify_hash actual (some exp) = .ok ()) := by
  constructor
  · intro h
    simp only [verify_hash, Option.map, if_pos h]
  · intro h
    simp only [verify_hash, Option.map]
    rw [if_neg (by simp [h])]

/-- Witness for the amended C9: an upper-case expected hash equal (up to
case) to the digest is accepted. -/
theorem c9_witness : verify_hash "ab" (some "AB") = .ok () :=
  (c9_amended "ab" "AB").2 (by decide)

/-! ## Claim C3 -/

/-- Counterexample to claim C3: at the u64 range `start = 0`,
`end = u64::MAX` (which satisfies `start ≤ end`), the expected length
`end - start + 1` wraps to `0` in the release-profile u64 arithmetic of
client.rs line 87, and the defensive branch of lines 88-91 returns
`Ok(vec![])` immediately — no attempt is made and no `Network` error is
produced even though no attempt yields a matching response (the oracle
here always fails).  (In a debug build the `+ 1` overflow panics instead;
either way the claimed `Network` error does not happen.) -/
theorem c3_counterexample :
    download_chunk (fun _ => .error (.Network "connection refused")) 0 18446744073709551615 =
      .ok [] := by
  decide

/-- Claim C3 as amended: for every range with `start ≤ end` whose length
`end - start + 1` does not overflow u64 (all ranges except
`(0, u64::MAX)`; the planner only ever produces such ranges),
`download_chunk` returns `Ok` with a body of length exactly
`end - start + 1` iff some attempt among the first `MAX_RETRIES = 10`
yields a parsed response with status 200 or 206 and body length
`end - start + 1`; and if no attempt among the 10 does, it returns the
`Network` error naming the range bounds and the attempt cap. -/
theorem c3_amended (att : Nat → Except DownloadError HttpResponse) (start e : Nat)
    (h1 : start ≤ e) (h2 : e - start < U64MAX) :
    ((∃ body, download_chunk att start e = .ok body ∧ body.length = e - start + 1) ↔
      ∃ a, 1 ≤ a ∧ a ≤ MAX_RETRIES ∧ goodAttempt att (e - start + 1) a) ∧
    ((∀ a, 1 ≤ a → a ≤ MAX_RETRIES → ¬ goodAttempt att (e - start + 1) a) →
      download_chunk att start e = .error (.Network (chunkFailMsg start e))) := by
  have hd := download_chunk_eq_loop att start e h1 h2
  constructor
  · constructor
    · rintro ⟨body, hok, _⟩
      by_contra hno
      push_neg at hno
      have hfail := chunkLoop_fail att start e (e - start + 1) MAX_RETRIES 1
        (fun j hj1 hj2 => hno j hj1 (by omega))
      rw [hd, hfail] at hok
      cases hok
    · rintro ⟨a, ha1, ha2, hg⟩
      obtain ⟨body, hb⟩ :=
        chunkLoop_ok_of_good att start e (e - start + 1) MAX_RETRIES 1 a ha1 (by omega) hg
      exact ⟨body, hd ▸ hb, chunkLoop_ok_length att start e _ MAX_RETRIES 1 body hb⟩
  · intro hno
    rw [hd]
    exact chunkLoop_fail att start e _ MAX_RETRIES 1 (fun j hj1 hj2 => hno j hj1 (by omega))

/-- Witness for the amended C3: an oracle that always fails exhausts all
10 attempts and yields the `Network` error with the range bounds. -/
theorem c3_witness :
    download_chunk (fun _ => .error (.Network "no route to host")) 10 14 =
      .error (.Network (chunkFailMsg 10 14)) :=
  (c3_amended (fun _ => .error (.Network "no route to host")) 10 14 (by decide) (by decide)).2
    (fun a _ _ hg => by
      obtain ⟨r, hr, _, _⟩ := hg
      simp at hr)

/-! ## Orchestrator lemmas -/

/-- An in-bounds slice write leaves the buffer length unchanged. -/
lemma setRange_length (buf : List Nat) (start : Nat) (data : List Nat)
    (h : start + data.length ≤ buf.length) :
    (setRange buf start data).length = buf.length := by
  simp only [setRange, List.length_append, List.length_take, List.length_drop]
  omega

/-- For u64-range inputs, the chunk end of client.rs lines 37-40 is the
chunk-size step clipped to the last byte. -/
lemma chunkEndFor_eq (total pos : Nat) (h1 : pos < total) (h2 : total ≤ U64MAX) :
    chunkEndFor total pos = min (pos + CHUNK_SIZE - 1) (total - 1) := by
  simp only [chunkEndFor, satAdd, satSub, CHUNK_SIZE, U64MAX] at *
  split_ifs with h <;> omega

/-- The download loop never changes the buffer's length: any `ok` result
has the length of the initial buffer. -/
lemma dlLoop_ok_length (att : Nat → Nat → Nat → Except DownloadError HttpResponse)
    (total : Nat) :
    ∀ fuel pos buf out, dlLoop att total fuel pos buf = .ok out →
      out.length = buf.length := by
  intro fuel
  induction fuel with
  | zero => intro pos buf out h; simp [dlLoop] at h
  | succ n ih =>
    intro pos buf out h
    simp only [dlLoop] at h
    by_cases hlt : pos < total
    · rw [if_pos hlt] at h
      by_cases hce : ¬ pos ≤ chunkEndFor total pos
      · rw [if_pos hce] at h; cases h
      · rw [if_neg hce] at h
        cases hdc : download_chunk (att pos (chunkEndFor total pos)) pos (chunkEndFor total pos) with
        | error e => simp only [hdc] at h; cases h
        | ok data =>
          simp only [hdc] at h
          by_cases hlen : data.length ≠ chunkEndFor total pos - pos + 1
          · rw [if_pos hlen] at h; cases h
          · rw [if_neg hlen] at h
            by_cases hb : ¬ pos + data.length ≤ buf.length
            · rw [if_pos hb] at h; cases h
            · rw [if_neg hb] at h
              rw [ih _ _ _ h, setRange_length buf pos data (by omega)]
    · rw [if_neg hlt] at h
      injection h with h'
      rw [← h']

/-- The download loop never panics on u64-range inputs when the buffer
has length `total`: every chunk satisfies the three `debug_assert!`
conditions and the slice write stays in bounds, for ANY attempt oracle. -/
lemma dlLoop_no_panic (att : Nat → Nat → Nat → Except DownloadError HttpResponse)
    (total : Nat) (htot : total ≤ U64MAX) :
    ∀ fuel pos buf, buf.length = total → dlLoop att total fuel pos buf ≠ .panicked := by
  intro fuel
  induction fuel with
  | zero => intro pos buf _; simp [dlLoop]
  | succ n ih =>
    intro pos buf hb
    simp only [dlLoop]
    by_cases hlt : pos < total
    · rw [if_pos hlt]
      have hce := chunkEndFor_eq total pos hlt htot
      have hcs_le : pos ≤ chunkEndFor total pos := by
        rw [hce]; simp only [CHUNK_SIZE]; omega
      have hce_lt : chunkEndFor total pos < total := by
        rw [hce]; omega
      rw [if_neg (not_not_intro hcs_le)]
      cases hdc : download_chunk (att pos (chunkEndFor total pos)) pos (chunkEndFor total pos) with
      | error e => simp
      | ok data =>
        have hdl : data.length = chunkEndFor total pos - pos + 1 :=
          download_chunk_ok_length _ pos (chunkEndFor total pos) hcs_le
            (by simp only [U64MAX] at htot ⊢; omega) data hdc
        dsimp only
        rw [if_neg (not_not_intro hdl)]
        rw [if_neg (not_not_intro (by omega : pos + data.length ≤ buf.length))]
        exact ih _ _ (by rw [setRange_length buf pos data (by omega)]; exact hb)
    · rw [if_neg hlt]
      simp

/-- Fuel sufficiency: with more fuel than remaining bytes the loop never
runs out.  Each entry that recurses first passes the length assertion, so
it advances `current_pos` by `chunk_end - chunk_start + 1 ≥ 1` bytes;
after at most `total - pos` such entries the `current_pos < total` test
fails and the loop returns.  In particular `download_full_data`, which
supplies fuel `total_size + 1` from `pos = 0`, never yields `outOfFuel`. -/
lemma dlLoop_no_fuel_out (att : Nat → Nat → Nat → Except DownloadError HttpResponse)
    (total : Nat) :
    ∀ fuel pos buf, total - pos < fuel → dlLoop att total fuel pos buf ≠ .outOfFuel := by
  intro fuel
  induction fuel with
  | zero => intro pos buf h; omega
  | succ n ih =>
    intro pos buf h
    simp only [dlLoop]
    by_cases hlt : pos < total
    · rw [if_pos hlt]
      by_cases hce : ¬ pos ≤ chunkEndFor total pos
      · rw [if_pos hce]; simp
      · rw [if_neg hce]
        cases hdc : download_chunk (att pos (chunkEndFor total pos)) pos (chunkEndFor total pos) with
        | error e => simp
        | ok data =>
          dsimp only
          by_cases hlen : data.length ≠ chunkEndFor total pos - pos + 1
          · rw [if_pos hlen]; simp
          · rw [if_neg hlen]
            have hlen2 : data.length = chunkEndFor total pos - pos + 1 := not_not.mp hlen
            by_cases hb : ¬ pos + data.length ≤ buf.length
            · rw [if_pos hb]; simp
            · rw [if_neg hb]
              exact ih _ _ (by omega)
    · rw [if_neg hlt]
      simp

/-! ## Claim C1 -/

/-- Claim C1: whenever `download_full_data` returns successfully — for
any attempt oracle — the returned byte buffer has length exactly
`total_size`; in particular `total_size = 0` yields the empty buffer. -/
theorem c1_download_length (att : Nat → Nat → Nat → Except DownloadError HttpResponse)
    (total_size : Nat) (buf : List Nat)
    (h : download_full_data att total_size = .ok buf) :
    buf.length = total_size ∧ download_full_data att 0 = .ok [] := by
  refine ⟨?_, rfl⟩
  by_cases h0 : total_size = 0
  · subst h0
    simp only [download_full_data, if_pos rfl] at h
    injection h with h'
    rw [← h']
    rfl
  · simp only [download_full_data, if_neg h0] at h
    have hlen := dlLoop_ok_length att total_size (total_size + 1) 0 (List.replicate total_size 0) buf h
    simpa using hlen

/-- Witness for C1 at `total_size = 1` (a single one-byte chunk): an
oracle that answers with the byte `7` succeeds with a buffer of
length 1. -/
theorem c1_witness :
    ([(7 : Nat)]).length = 1 ∧
      download_full_data (fun _ _ _ => .ok ⟨200, [7]⟩) 0 = .ok [] :=
  c1_download_length (fun _ _ _ => .ok ⟨200, [7]⟩) 1 [7] (by rfl)

/-! ## Claim C10 -/

/-- Claim C10: for every u64 `total_size` and every attempt oracle, the
orchestrator never panics: in each iteration `chunk_start ≤ chunk_end`,
a successfully fetched chunk has length exactly
`chunk_end - chunk_start + 1`, and `chunk_start` plus that length never
exceeds `total_size` — so the three `debug_assert!`s of client.rs lines
45, 51-54 and 60-65 hold and the slice write of line 68 stays within the
pre-allocated buffer (all four conditions are the `panicked` branches of
`dlLoop`). -/
theorem c10_no_panic (att : Nat → Nat → Nat → Except DownloadError HttpResponse)
    (total_size : Nat) (htot : total_size ≤ U64MAX) :
    download_full_data att total_size ≠ .panicked := by
  by_cases h0 : total_size = 0
  · subst h0
    simp [download_full_data]
  · simp only [download_full_data, if_neg h0]
    exact dlLoop_no_panic att total_size htot (total_size + 1) 0 (List.replicate total_size 0) (by simp)

/-- Witness for C10: a three-byte download whose oracle always fails
ends in the retry-exhaustion error, not a panic. -/
theorem c10_witness :
    (3 : Nat) ≤ U64MAX ∧
      download_full_data (fun _ _ _ => .error (.Network "connection reset")) 3 ≠ .panicked :=
  ⟨by decide, c10_no_panic (fun _ _ _ => .error (.Network "connection reset")) 3 (by decide)⟩

/-! ## Planner lemmas -/

/-- The planner produces nothing once the cursor has reached the total. -/
lemma planFrom_nil (total fuel pos : Nat) (h : ¬ pos < total) :
    planFrom total fuel pos = [] := by
  cases fuel with
  | zero => rfl
  | succ n => simp [planFrom, h]

/-- Full characterisation of the planner's range list from cursor `pos`:
it starts at `pos`, every range is well-formed and ends before `total`,
consecutive ranges are adjacent, the lengths sum to `total - pos`, and
the last range ends at `total - 1`. -/
lemma planFrom_spec (total : Nat) (h2 : total ≤ U64MAX) :
    ∀ fuel pos, pos < total → total - pos ≤ fuel →
      (planFrom total fuel pos).head?.map Prod.fst = some pos ∧
      (∀ p ∈ planFrom total fuel pos, p.1 ≤ p.2 ∧ p.2 < total) ∧
      List.Chain' (fun a b => b.1 = a.2 + 1) (planFrom total fuel pos) ∧
      ((planFrom total fuel pos).map (fun p => p.2 - p.1 + 1)).sum = total - pos ∧
      (planFrom total fuel pos).getLast?.map Prod.snd = some (total - 1) := by
  intro fuel
  induction fuel with
  | zero => intro pos hpos hfuel; omega
  | succ n ih =>
    intro pos hpos hfuel
    have hce := chunkEndFor_eq total pos hpos h2
    have hpos_le : pos ≤ chunkEndFor total pos := by
      rw [hce]; simp only [CHUNK_SIZE]; omega
    have hce_lt : chunkEndFor total pos < total := by rw [hce]; omega
    simp only [planFrom, if_pos hpos]
    by_cases hlast : chunkEndFor total pos + 1 < total
    case neg =>
      have hnil : planFrom total n (chunkEndFor total pos + 1) = [] :=
        planFrom_nil total n _ (by omega)
      have hend : chunkEndFor total pos = total - 1 := by omega
      rw [hnil]
      refine ⟨rfl, ?_, ?_, ?_, ?_⟩
      · intro p hp
        simp only [List.mem_singleton] at hp
        rw [hp]
        exact ⟨hpos_le, hce_lt⟩
      · simp
      · simp only [List.map_cons, List.map_nil, List.sum_cons, List.sum_nil]
        omega
      · simp [hend]
    case pos =>
      obtain ⟨ihh, ihv, ihc, ihs, ihl⟩ := ih (chunkEndFor total pos + 1) hlast (by omega)
      cases hR : planFrom total n (chunkEndFor total pos + 1) with
      | nil => rw [hR] at ihh; simp at ihh
      | cons y0 R2 =>
        rw [hR] at ihh ihv ihc ihs ihl
        have hy0 : y0.1 = chunkEndFor total pos + 1 := by simpa using ihh
        refine ⟨rfl, ?_, ?_, ?_, ?_⟩
        · intro p hp
          rcases List.mem_cons.mp hp with hp | hp
          · rw [hp]; exact ⟨hpos_le, hce_lt⟩
          · exact ihv p hp
        · exact List.chain'_cons.mpr ⟨hy0, ihc⟩
        · simp only [List.map_cons, List.sum_cons] at ihs ⊢
          omega
        · rw [List.getLast?_cons_cons]
          exact ihl

/-- Elements after the head of an adjacent chain of well-formed ranges
start strictly after `a2` whenever the head starts at `a2 + 1`. -/
lemma chain_lower (a2 : Nat) (R : List (Nat × Nat)) :
    (∀ p ∈ R, p.1 ≤ p.2) → List.Chain' (fun a b => b.1 = a.2 + 1) R →
    (∀ y ∈ R.head?, y.1 = a2 + 1) → ∀ b ∈ R, a2 < b.1 := by
  induction R generalizing a2 with
  | nil => intro _ _ _ b hb; cases hb
  | cons y R ih =>
    intro hv hc hh b hb
    have hy1 : y.1 = a2 + 1 := hh y (by simp)
    rcases List.mem_cons.mp hb with hb | hb
    · rw [hb]; omega
    · obtain ⟨hhead, htail⟩ := List.chain'_cons'.mp hc
      have hy12 : y.1 ≤ y.2 := hv y (by simp)
      have := ih y.2 (fun p hp => hv p (by simp [hp])) htail hhead b hb
      omega

/-- An adjacent chain of well-formed ranges is pairwise disjoint (every
earlier range ends strictly before every later range starts). -/
lemma chain_disjoint (R : List (Nat × Nat)) :
    (∀ p ∈ R, p.1 ≤ p.2) → List.Chain' (fun a b => b.1 = a.2 + 1) R →
    List.Pairwise (fun a b => a.2 < b.1) R := by
  induction R with
  | nil => intro _ _; exact List.Pairwise.nil
  | cons a R ih =>
    intro hv hc
    obtain ⟨hhead, htail⟩ := List.chain'_cons'.mp hc
    exact List.Pairwise.cons
      (chain_lower a.2 R (fun p hp => hv p (by simp [hp])) htail hhead)
      (ih (fun p hp => hv p (by simp [hp])) htail)

/-- Every planner range is well-formed and ends before `total_size`. -/
lemma planRanges_mem (total : Nat) (h1 : 0 < total) (h2 : total ≤ U64MAX) :
    ∀ p ∈ planRanges total, p.1 ≤ p.2 ∧ p.2 < total := by
  obtain ⟨_, hv, _, _, _⟩ := planFrom_spec total h2 total 0 h1 (by omega)
  exact hv

/-! ## Claim C2 -/

/-- Claim C2: for every u64 `total_size > 0` with the fixed 32 KiB chunk
size, the sequence of byte ranges the orchestrator iterates is non-empty
and starts at offset 0, each range is well-formed (`start ≤ end`),
consecutive ranges are adjacent (`next.start = prev.end + 1` — hence
contiguous, ascending and, as the `Pairwise` conjunct spells out,
non-overlapping), the ranges' lengths sum exactly to `total_size`, and
the last range's inclusive end is `total_size - 1`. -/
theorem c2_plan_ranges (total_size : Nat) (h1 : 0 < total_size) (h2 : total_size ≤ U64MAX) :
    planRanges total_size ≠ [] ∧
    (planRanges total_size).head?.map Prod.fst = some 0 ∧
    (∀ p ∈ planRanges total_size, p.1 ≤ p.2) ∧
    List.Chain' (fun a b => b.1 = a.2 + 1) (planRanges total_size) ∧
    List.Pairwise (fun a b => a.2 < b.1) (planRanges total_size) ∧
    ((planRanges total_size).map (fun p => p.2 - p.1 + 1)).sum = total_size ∧
    (planRanges total_size).getLast?.map Prod.snd = some (total_size - 1) := by
  obtain ⟨hh, hv, hc, hs, hl⟩ := planFrom_spec total_size h2 total_size 0 h1 (by omega)
  refine ⟨?_, hh, fun p hp => (hv p hp).1, hc,
    chain_disjoint _ (fun p hp => (hv p hp).1) hc, by simpa using hs, hl⟩
  intro hnil
  rw [planRanges] at hnil
  rw [hnil] at hh
  cases hh

/-- Witness for C2 at `total_size = 65537` (two full 32 KiB chunks plus
the clipped one-byte last range). -/
theorem c2_witness :
    planRanges 65537 ≠ [] ∧
    (planRanges 65537).head?.map Prod.fst = some 0 ∧
    (∀ p ∈ planRanges 65537, p.1 ≤ p.2) ∧
    List.Chain' (fun a b => b.1 = a.2 + 1) (planRanges 65537) ∧
    List.Pairwise (fun a b => a.2 < b.1) (planRanges 65537) ∧
    ((planRanges 65537).map (fun p => p.2 - p.1 + 1)).sum = 65537 ∧
    (planRanges 65537).getLast?.map Prod.snd = some (65537 - 1) :=
  c2_plan_ranges 65537 (by decide) (by decide)

/-! ## Claim C4 -/

/-- Claim C4: for every range `[start, end]` the planner produces, the
request put on the wire carries the header line
`Range: bytes=<start>-<end + 1>` — the written upper bound is the
inclusive end plus one (client.rs lines 96-101 pass
`end.saturating_add(1)` as the exclusive upper bound that
`send_request`'s `end > start` branch then prints verbatim). -/
theorem c4_range_header (address : String) (total_size s e : Nat)
    (h1 : 0 < total_size) (h2 : total_size ≤ U64MAX)
    (hmem : (s, e) ∈ planRanges total_size) :
    chunk_request address s e =
      ("GET / HTTP/1.1\r\nHost: " ++ hostOf address ++ "\r\nConnection: close\r\n" ++
        ("Range: bytes=" ++ toString s ++ "-" ++ toString (e + 1) ++ "\r\n")) ++ "\r\n" := by
  obtain ⟨hse, hlt⟩ := planRanges_mem total_size h1 h2 (s, e) hmem
  have hsat : satAdd e 1 = e + 1 := by
    simp only [satAdd, U64MAX] at h2 ⊢
    omega
  simp only [chunk_request, build_request, hsat]
  rw [if_pos (by omega : e + 1 > s)]

/-- Witness for C4: the single range of a five-byte download yields
`Range: bytes=0-5`. -/
theorem c4_witness :
    chunk_request "127.0.0.1:8080" 0 4 =
      ("GET / HTTP/1.1\r\nHost: " ++ hostOf "127.0.0.1:8080" ++ "\r\nConnection: close\r\n" ++
        ("Range: bytes=" ++ toString 0 ++ "-" ++ toString (4 + 1) ++ "\r\n")) ++ "\r\n" :=
  c4_range_header "127.0.0.1:8080" 5 0 4 (by decide) (by decide) (by decide)

end HttpClient
